import Mathlib

/-!
# Verification of the sweep-orchestration core of `lightning-hpo`

Shallow embedding of the repository's Python sources:

* `lightning_hpo/app/sweeper.py` — the `Sweeper` flow (`run`, `create_sweep`)
  and the Streamlit `render_fn`;
* `lightning_hpo/algorithm/base.py` — the abstract `Algorithm` base class.

The `Sweep` component (its constructor arguments appear in
`Sweeper.create_sweep`, and `Sweeper.run` calls its `run` and `get_trials`)
is not among the sources; its tick/collection behaviour is modelled from the
specification where needed and is marked as such in the doc comments below.

Machine state is passed explicitly: the Python `Sweeper` object becomes the
`Sweeper` structure, and the two public operations become pure functions
`Sweeper.create_sweep : Sweeper → SweepConfig → Sweeper × String` and
`Sweeper.run : Sweeper → TickEvent → Sweeper`.  HTTP posts to the database
(`requests.post(self.db.url ++ "/trial", ...)`) are recorded in the
`posted` trace field.
-/

namespace LightningHpo

/-! ## Trials (as seen by the Sweeper) -/

/-- The per-trial state the `Sweeper`-level claims depend on: the trial's
identifier, whether it has reached a terminal state, and whether it has
already been handed to the Sweeper by `Sweep.get_trials`.
`trial_id` is a monotonically increasing integer within a sweep starting
at 0. -/
structure Trial where
  trial_id : Nat
  terminal : Bool
  collected : Bool
deriving Repr, DecidableEq

/-- Mark a trial terminal when its id is listed in the tick's completion
events; terminal states are final, so `terminal` is only ever set, never
cleared. -/
def markTerminal (completions : List Nat) (t : Trial) : Trial :=
  if t.trial_id ∈ completions then { t with terminal := true } else t

/-- Record that a terminal trial has been collected by `Sweep.get_trials`
(so later ticks do not return it again). -/
def collectTrial (t : Trial) : Trial :=
  if t.terminal then { t with collected := true } else t

/-- `n` freshly admitted trials with ids `start, start+1, ...`:
trial ids are allocated consecutively within a sweep. -/
def newTrialsFrom (start n : Nat) : List Trial :=
  (List.range n).map (fun i => ⟨start + i, false, false⟩)

/-! ## The Sweep object and the sweep-creation request -/

/-- `CloudCompute(config.cloud_compute, config.num_nodes)` from
`lightning_hpo/utilities/utils.py` (a name plus a node count). -/
structure CloudCompute where
  name : String
  num_nodes : Nat
deriving Repr, DecidableEq

/-- The `code={"drive": self.drive, "name": config.sweep_id}` argument of the
`Sweep` constructor. -/
structure CodeRef where
  drive : String
  name : String
deriving Repr, DecidableEq

/-- `BuildConfig(requirements=config.requirements)`. -/
structure BuildConfig where
  requirements : List String
deriving Repr, DecidableEq

/-- `OptunaAlgorithm(optuna.create_study(direction=config.direction))`:
the concrete algorithm object handed to a new `Sweep`, indexed here by the
direction its study was created with. -/
structure OptunaAlgorithm where
  direction : String
deriving Repr, DecidableEq

/-- The `Sweep` object as stored in `Sweeper.sweeps`.  Its fields are exactly
the keyword arguments of the `Sweep(...)` call in `Sweeper.create_sweep`,
plus `restart_count` and `has_failed` (read and written by `create_sweep`),
plus the trial list that `run`/`get_trials` operate on.  `obj_id` is a model
artifact: an allocation stamp that identifies the Python object, so that
"the same Sweep object" is expressible. -/
structure Sweep where
  obj_id : Nat
  script_path : String
  n_trials : Nat
  simultaneous_trials : Nat
  framework : String
  script_args : List String
  distributions : List (String × String)
  cloud_compute : CloudCompute
  sweep_id : String
  code : CodeRef
  cloud_build_config : BuildConfig
  logger : String
  algorithm : OptunaAlgorithm
  restart_count : Nat
  has_failed : Bool
  trials : List Trial
deriving Repr, DecidableEq

/-- Modelled from the spec: the "create/restart sweep" request
(`lightning_hpo/commands/sweep.py` is not among the sources).  Its fields
are exactly the ones `Sweeper.create_sweep` reads off `config`. -/
structure SweepConfig where
  sweep_id : String
  script_path : String
  n_trials : Nat
  simultaneous_trials : Nat
  framework : String
  script_args : List String
  distributions : List (String × String)
  cloud_compute : String
  num_nodes : Nat
  logger : String
  direction : String
  requirements : List String
deriving Repr, DecidableEq

/-! ## The Sweeper -/

/-- The `Sweeper` flow state: the `sweeps` mapping (a dict with unique keys,
embedded as an association list in insertion order), the shared code drive,
an allocation counter for `obj_id` stamps, and the trace of trial records
posted to the database endpoint, each identified by `(sweep_id, trial_id)`. -/
structure Sweeper where
  sweeps : List (String × Sweep)
  drive : String
  next_obj_id : Nat
  posted : List (String × Nat)
deriving Repr, DecidableEq

/-- `Sweeper.__init__`: no sweeps, the `lit://code` drive, nothing posted. -/
def Sweeper.init : Sweeper :=
  { sweeps := [], drive := "lit://code", next_obj_id := 0, posted := [] }

/-- `f"Launched a sweep {config.sweep_id}"`. -/
def launchedMsg (sweep_id : String) : String :=
  "Launched a sweep " ++ sweep_id

/-- `f"Updated code for Sweep {config.sweep_id}."`. -/
def updatedMsg (sweep_id : String) : String :=
  "Updated code for Sweep " ++ sweep_id ++ "."

/-- `f"The current Sweep {config.sweep_id} is running. It couldn't be
updated."` (the apostrophe is spelled via its code point). -/
def rejectedMsg (sweep_id : String) : String :=
  "The current Sweep " ++ sweep_id ++ " is running. It couldn't be updated."

/-- The `Sweep(...)` constructor call in `Sweeper.create_sweep`, with a fresh
`obj_id` stamp.  A new sweep starts with `restart_count = 0`,
`has_failed = False` and no trials. -/
def newSweep (oid : Nat) (drive : String) (config : SweepConfig) : Sweep :=
  { obj_id := oid
    script_path := config.script_path
    n_trials := config.n_trials
    simultaneous_trials := config.simultaneous_trials
    framework := config.framework
    script_args := config.script_args
    distributions := config.distributions
    cloud_compute := ⟨config.cloud_compute, config.num_nodes⟩
    sweep_id := config.sweep_id
    code := ⟨drive, config.sweep_id⟩
    cloud_build_config := ⟨config.requirements⟩
    logger := config.logger
    algorithm := ⟨config.direction⟩
    restart_count := 0
    has_failed := false
    trials := [] }

/-- In-place update of the dict entry at key `k`
(`self.sweeps[k].restart_count += 1` and friends). -/
def updateSweeps (k : String) (f : Sweep → Sweep) :
    List (String × Sweep) → List (String × Sweep)
  | [] => []
  | p :: rest =>
    (if p.1 = k then (p.1, f p.2) else p) :: updateSweeps k f rest

/-- `Sweeper.create_sweep`.  Python tests `config.sweep_id not in
list(self.sweeps.keys())`; on an association list with unique keys that is
exactly `lookup = none`.  The three branches return the three status
strings of the source. -/
def Sweeper.create_sweep (st : Sweeper) (config : SweepConfig) :
    Sweeper × String :=
  match st.sweeps.lookup config.sweep_id with
  | none =>
      ({ st with
          sweeps :=
            st.sweeps ++ [(config.sweep_id, newSweep st.next_obj_id st.drive config)]
          next_obj_id := st.next_obj_id + 1 },
       launchedMsg config.sweep_id)
  | some sw =>
      if sw.has_failed then
        ({ st with
            sweeps := updateSweeps config.sweep_id
              (fun s => { s with restart_count := s.restart_count + 1, has_failed := false })
              st.sweeps },
         updatedMsg config.sweep_id)
      else
        (st, rejectedMsg config.sweep_id)

/-! ## The coordination tick -/

/-- The external inputs one call of `Sweeper.run` observes: whether
`self.file_server.alive()` and `self.db.alive()` hold, and — per sweep key —
how many trials its `Sweep.run` admits this tick and which trial ids its
execution collaborators report terminal. -/
structure TickEvent where
  fs_alive : Bool
  db_alive : Bool
  admissions : String → Nat
  completions : String → List Nat

/-- Modelled from the spec: `Sweep.run` (the `Sweep` class is not among the
sources) advances the sweep on a tick — it admits new trials with
consecutively allocated ids and marks the trials reported by the execution
collaborators as terminal.  Terminal states are final. -/
def Sweep.tick (adm : Nat) (comp : List Nat) (s : Sweep) : Sweep :=
  { s with trials := (s.trials ++ newTrialsFrom s.trials.length adm).map (markTerminal comp) }

/-- Modelled from the spec: `Sweep.get_trials` returns the newly-terminal
trials — terminal and not yet collected on an earlier tick. -/
def Sweep.get_trials (s : Sweep) : List Trial :=
  s.trials.filter (fun t => t.terminal && !t.collected)

/-- Modelled from the spec: after collection, every terminal trial counts as
collected, so later ticks do not return it again. -/
def Sweep.markCollected (s : Sweep) : Sweep :=
  { s with trials := s.trials.map collectTrial }

/-- The `(sweep_id, trial_id)` records of a sweep's newly-terminal trials,
in trial order — these are what `Sweeper.run` posts to the database. -/
def Sweep.newKeys (k : String) (s : Sweep) : List (String × Nat) :=
  (Sweep.get_trials s).map (fun t => (k, t.trial_id))

/-- `sweep.run()` applied to every entry of the mapping, in order. -/
def tickSweeps (ev : TickEvent) (l : List (String × Sweep)) : List (String × Sweep) :=
  l.map (fun p => (p.1, Sweep.tick (ev.admissions p.1) (ev.completions p.1) p.2))

/-- Marking the collection of the newly-terminal trials of every sweep. -/
def collectSweeps (l : List (String × Sweep)) : List (String × Sweep) :=
  l.map (fun p => (p.1, Sweep.markCollected p.2))

/-- `trials.extend(sweep.get_trials())` over every sweep, in order: the
records posted to the database endpoint on this tick. -/
def newlyPosted (l : List (String × Sweep)) : List (String × Nat) :=
  l.flatMap (fun p => Sweep.newKeys p.1 p.2)

/-- `Sweeper.run`: when both the file server and the database are alive,
tick every owned sweep (`for sweep in self.sweeps.values(): sweep.run()`),
collect `trials.extend(sweep.get_trials())` from each, and post every
collected record to the database endpoint; otherwise the sweeps and the
posted trace are untouched. -/
def Sweeper.run (st : Sweeper) (ev : TickEvent) : Sweeper :=
  if ev.fs_alive && ev.db_alive then
    { st with
        sweeps := collectSweeps (tickSweeps ev st.sweeps)
        posted := st.posted ++ newlyPosted (tickSweeps ev st.sweeps) }
  else st

/-- One externally triggered operation on the `Sweeper`: a sweep-creation
request or a coordination tick. -/
inductive Op where
  | create (config : SweepConfig)
  | tick (ev : TickEvent)

/-- Apply one operation to the Sweeper state. -/
def applyOp (st : Sweeper) : Op → Sweeper
  | .create config => (st.create_sweep config).1
  | .tick ev => st.run ev

/-- The Sweeper state after a sequence of operations from a fresh
`Sweeper.init`. -/
def applyOps (ops : List Op) : Sweeper :=
  ops.foldl applyOp Sweeper.init

/-! ## The abstract Algorithm base class (`lightning_hpo/algorithm/base.py`) -/

/-- The abstract `Algorithm` base class, embedded as a record with one field
per abstract method, over an algorithm-internal state `σ`, a score type and
a parameter-value type.  `register_distributions` records the search space;
`trial_start`/`trial_end` mark trial admission and termination;
`should_prune` consumes a trial's report list; `get_params` returns the
mapping from parameter name to the value sampled for a trial. -/
structure Algorithm (σ Score Value : Type) where
  register_distributions : σ → List (String × String) → σ
  trial_start : σ → Nat → σ
  trial_end : σ → Nat → Score → σ
  should_prune : σ → Nat → List Score → Bool
  get_params : σ → Nat → List (String × Value)

/-- The names of the abstract methods of `Algorithm`, in source order —
one per `@abstractmethod` of `base.py`, mirroring the fields of the
`Algorithm` record above. -/
def Algorithm.abstractMethods : List String :=
  ["register_distributions", "trial_start", "trial_end", "should_prune", "get_params"]

/-! ## The dashboard rendering function (`render_fn`) -/

/-- A stored trial record as read back from the database by `render_fn`. -/
structure TrialRecord where
  sweep_id : String
  trial_id : Nat
deriving Repr, DecidableEq

/-- Python's `s.split("-")` for the one-character separator `"-"`, on the
character list of `s`: `[] ↦ [""]`, and each hyphen starts a new part. -/
def splitOnHyphen : List Char → List (List Char)
  | [] => [[]]
  | c :: cs =>
    match splitOnHyphen cs with
    | [] => if c = '-' then [[], []] else [[c]]
    | r :: rs => if c = '-' then [] :: r :: rs else (c :: r) :: rs

/-- The unpacking `username, sweep_id = trial.sweep_id.split("-")` of
`render_fn`: it succeeds exactly when the split yields two parts, and raises
(`ValueError`) otherwise. -/
def unpackUserSweep (s : List Char) : Option (List Char × List Char) :=
  match splitOnHyphen s with
  | [a, b] => some (a, b)
  | _ => none

/-- The grouping loop of `render_fn` over the stored trials: unpack each
trial's `sweep_id` into `(username, sweep_id)`; the whole rendering fails
(`none`) as soon as one unpacking raises. -/
def renderGroups : List TrialRecord → Option (List ((List Char × List Char) × TrialRecord))
  | [] => some []
  | t :: ts =>
    match unpackUserSweep t.sweep_id.data with
    | none => none
    | some us =>
      match renderGroups ts with
      | none => none
      | some rest => some ((us, t) :: rest)

/-! ## Association-list lemmas -/

theorem lookup_cons {β : Type} (a k : String) (b : β) (l : List (String × β)) :
    ((a, b) :: l).lookup k = if k = a then some b else l.lookup k := by
  simp [List.lookup]
  split <;> simp_all

theorem lookup_append_of_some {β : Type} {l : List (String × β)} {k : String} {v : β}
    (r : List (String × β)) (h : l.lookup k = some v) : (l ++ r).lookup k = some v := by
  induction l with
  | nil => simp [List.lookup] at h
  | cons p rest ih =>
    rcases p with ⟨a, b⟩
    rw [List.cons_append, lookup_cons] at *
    by_cases hk : k = a
    · simpa [hk] using h
    · simp [hk] at h ⊢; exact ih h

theorem lookup_updateSweeps_self {l : List (String × Sweep)} {k : String} {v : Sweep}
    (f : Sweep → Sweep) (h : l.lookup k = some v) :
    (updateSweeps k f l).lookup k = some (f v) := by
  induction l with
  | nil => simp [List.lookup] at h
  | cons p rest ih =>
    rcases p with ⟨a, b⟩
    rw [lookup_cons] at h
    by_cases hk : k = a
    · simp [hk] at h
      simp [updateSweeps, hk, lookup_cons, h]
    · simp [hk] at h
      simp [updateSweeps, lookup_cons, Ne.symm hk, hk, ih h]

theorem lookup_updateSweeps_ne {l : List (String × Sweep)} {k k' : String}
    (f : Sweep → Sweep) (h : k' ≠ k) :
    (updateSweeps k f l).lookup k' = l.lookup k' := by
  induction l with
  | nil => simp [updateSweeps]
  | cons p rest ih =>
    rcases p with ⟨a, b⟩
    by_cases hk : a = k
    · simp [updateSweeps, hk, lookup_cons, h, ih]
    · simp [updateSweeps, hk, lookup_cons, ih]

theorem updateSweeps_length (k : String) (f : Sweep → Sweep) (l : List (String × Sweep)) :
    (updateSweeps k f l).length = l.length := by
  induction l with
  | nil => rfl
  | cons p rest ih => simp [updateSweeps, ih]

/-! ## Fixtures for the concrete witnesses -/

/-- A concrete sweep-creation request, for witnesses. -/
def sampleConfig : SweepConfig :=
  { sweep_id := "alice-exp1"
    script_path := "train.py"
    n_trials := 5
    simultaneous_trials := 1
    framework := "pytorch_lightning"
    script_args := []
    distributions := [("model.lr", "log_uniform(0.001, 0.1)")]
    cloud_compute := "cpu"
    num_nodes := 1
    logger := "wandb"
    direction := "maximize"
    requirements := [] }

/-- The Sweeper after one successful creation of `sampleConfig`. -/
def sampleSweeper : Sweeper := (Sweeper.init.create_sweep sampleConfig).1

/-- `sampleSweeper` with its one sweep marked failed (`restart_count = 0`). -/
def failedSweeper : Sweeper :=
  { sampleSweeper with
      sweeps := updateSweeps "alice-exp1" (fun s => { s with has_failed := true })
        sampleSweeper.sweeps }

/-- A tick on which the file server does not report alive. -/
def deadTick : TickEvent :=
  { fs_alive := false, db_alive := true
    admissions := fun _ => 1, completions := fun _ => [] }

/-- A tick on which both collaborators are alive, one admission per sweep,
no completions. -/
def aliveTick : TickEvent :=
  { fs_alive := true, db_alive := true
    admissions := fun _ => 1, completions := fun _ => [] }

/-! ## C1 — creation against a live sweep is rejected and changes nothing -/

/-- C1: if `config.sweep_id` already denotes a sweep whose `has_failed` flag
is false, `create_sweep` returns the rejection message and leaves the whole
Sweeper state — in particular the `sweeps` mapping — unchanged: no second
Sweep object is created and the existing Sweep is not modified. -/
theorem create_sweep_rejects_live (st : Sweeper) (config : SweepConfig) (sw : Sweep)
    (hl : st.sweeps.lookup config.sweep_id = some sw) (hf : sw.has_failed = false) :
    (st.create_sweep config).2 = rejectedMsg config.sweep_id ∧
    (st.create_sweep config).1 = st := by
  simp [Sweeper.create_sweep, hl, hf]

theorem create_sweep_rejects_live_witness :
    (sampleSweeper.create_sweep sampleConfig).2 = rejectedMsg "alice-exp1" ∧
    (sampleSweeper.create_sweep sampleConfig).1 = sampleSweeper :=
  create_sweep_rejects_live sampleSweeper sampleConfig
    (newSweep 0 "lit://code" sampleConfig) (by decide) (by decide)

/-! ## C2 — creation against a failed sweep restarts it in place -/

/-- C2: if `config.sweep_id` denotes a sweep whose `has_failed` flag is set,
`create_sweep` increments that sweep's `restart_count` by exactly 1, clears
`has_failed`, allocates no new Sweep object (same `obj_id`, same number of
sweeps, allocation counter untouched) and returns the "Updated code"
message. -/
theorem create_sweep_restarts_failed (st : Sweeper) (config : SweepConfig) (sw : Sweep)
    (hl : st.sweeps.lookup config.sweep_id = some sw) (hf : sw.has_failed = true) :
    (st.create_sweep config).2 = updatedMsg config.sweep_id ∧
    (st.create_sweep config).1.sweeps.lookup config.sweep_id =
      some { sw with restart_count := sw.restart_count + 1, has_failed := false } ∧
    (st.create_sweep config).1.sweeps.length = st.sweeps.length ∧
    (st.create_sweep config).1.next_obj_id = st.next_obj_id := by
  refine ⟨?_, ?_, ?_, ?_⟩ <;>
    simp [Sweeper.create_sweep, hl, hf, updateSweeps_length,
      lookup_updateSweeps_self _ hl]

/-- Witness for C2, at the scenario of the spec: the failed sweep has
`restart_count = 0` and ends with `restart_count = 1`, `has_failed = false`. -/
theorem create_sweep_restarts_failed_witness :
    (failedSweeper.create_sweep sampleConfig).2 = updatedMsg "alice-exp1" ∧
    (failedSweeper.create_sweep sampleConfig).1.sweeps.lookup "alice-exp1" =
      some { newSweep 0 "lit://code" sampleConfig with restart_count := 1, has_failed := false } ∧
    (failedSweeper.create_sweep sampleConfig).1.sweeps.length = failedSweeper.sweeps.length ∧
    (failedSweeper.create_sweep sampleConfig).1.next_obj_id = failedSweeper.next_obj_id :=
  create_sweep_restarts_failed failedSweeper sampleConfig
    { newSweep 0 "lit://code" sampleConfig with has_failed := true } (by decide) (by decide)

/-! ## C4 — the restart is frame-preserving -/

/-- C4: the restart performed by `create_sweep` on a failed sweep changes
nothing but `restart_count` and `has_failed`: the stored sweep equals the old
one with exactly those two fields updated (so its trials, distributions,
algorithm, `n_trials`, `simultaneous_trials` and every other attribute are
unchanged), every other key of the mapping still maps to the same value, and
the rest of the Sweeper state is untouched. -/
theorem create_sweep_restart_frame (st : Sweeper) (config : SweepConfig) (sw : Sweep)
    (hl : st.sweeps.lookup config.sweep_id = some sw) (hf : sw.has_failed = true) :
    (st.create_sweep config).1.sweeps.lookup config.sweep_id =
      some { sw with restart_count := sw.restart_count + 1, has_failed := false } ∧
    (∀ k, k ≠ config.sweep_id →
      (st.create_sweep config).1.sweeps.lookup k = st.sweeps.lookup k) ∧
    (st.create_sweep config).1.posted = st.posted ∧
    (st.create_sweep config).1.next_obj_id = st.next_obj_id ∧
    (st.create_sweep config).1.drive = st.drive := by
  refine ⟨?_, fun k hk => ?_, ?_, ?_, ?_⟩
  · simp [Sweeper.create_sweep, hl, hf, lookup_updateSweeps_self _ hl]
  · simp [Sweeper.create_sweep, hl, hf, lookup_updateSweeps_ne _ hk]
  · simp [Sweeper.create_sweep, hl, hf]
  · simp [Sweeper.create_sweep, hl, hf]
  · simp [Sweeper.create_sweep, hl, hf]

theorem create_sweep_restart_frame_witness :
    (failedSweeper.create_sweep sampleConfig).1.sweeps.lookup "alice-exp1" =
      some { newSweep 0 "lit://code" sampleConfig with restart_count := 1, has_failed := false } ∧
    (∀ k, k ≠ "alice-exp1" →
      (failedSweeper.create_sweep sampleConfig).1.sweeps.lookup k =
        failedSweeper.sweeps.lookup k) ∧
    (failedSweeper.create_sweep sampleConfig).1.posted = failedSweeper.posted ∧
    (failedSweeper.create_sweep sampleConfig).1.next_obj_id = failedSweeper.next_obj_id ∧
    (failedSweeper.create_sweep sampleConfig).1.drive = failedSweeper.drive :=
  create_sweep_restart_frame failedSweeper sampleConfig
    { newSweep 0 "lit://code" sampleConfig with has_failed := true } (by decide) (by decide)

/-! ## C6 — three pairwise-distinct status strings -/

/-- C6: `create_sweep` always returns one of the three status strings —
launched, restarted ("Updated code"), or rejected — and those three strings
are pairwise distinct (for any identifiers whatsoever, since their constant
prefixes already differ), so the outcome is recoverable from the returned
string alone. -/
theorem create_sweep_three_distinct_outcomes (st : Sweeper) (config : SweepConfig) :
    ((st.create_sweep config).2 = launchedMsg config.sweep_id ∨
     (st.create_sweep config).2 = updatedMsg config.sweep_id ∨
     (st.create_sweep config).2 = rejectedMsg config.sweep_id) ∧
    (∀ a b : String, launchedMsg a ≠ updatedMsg b) ∧
    (∀ a b : String, launchedMsg a ≠ rejectedMsg b) ∧
    (∀ a b : String, updatedMsg a ≠ rejectedMsg b) := by
  refine ⟨?_, fun a b h => ?_, fun a b h => ?_, fun a b h => ?_⟩
  · unfold Sweeper.create_sweep
    rcases hl : st.sweeps.lookup config.sweep_id with _ | sw
    · simp
    · by_cases hf : sw.has_failed <;> simp [hf]
  all_goals
    have h2 := congrArg String.data h
    simp [launchedMsg, updatedMsg, rejectedMsg, String.data_append] at h2

/-! ## C7 — ticking every sweep requires both collaborators alive -/

/-- C7 as stated is false: on a tick where a collaborator does not report
alive, `Sweeper.run` skips every owned sweep.  Concretely, with one owned
sweep and a tick whose file server is down but which would admit one trial,
the resulting `sweeps` are not the result of ticking each owned sweep. -/
theorem run_ticks_every_sweep_counterexample :
    ¬ ((sampleSweeper.run deadTick).sweeps =
        sampleSweeper.sweeps.map (fun p =>
          (p.1, Sweep.markCollected
            (Sweep.tick (deadTick.admissions p.1) (deadTick.completions p.1) p.2)))) := by
  decide

/-- C7 amended: on every coordination tick on which both the file server and
the database report alive, `Sweeper.run` ticks every owned Sweep of the
`sweeps` mapping — each entry is replaced by the result of running its sweep
(and collecting its newly-terminal trials), with no owned Sweep skipped. -/
theorem run_ticks_every_sweep_when_alive (st : Sweeper) (ev : TickEvent)
    (h1 : ev.fs_alive = true) (h2 : ev.db_alive = true) :
    (st.run ev).sweeps = st.sweeps.map (fun p =>
      (p.1, Sweep.markCollected
        (Sweep.tick (ev.admissions p.1) (ev.completions p.1) p.2))) := by
  simp [Sweeper.run, tickSweeps, collectSweeps, h1, h2, List.map_map, Function.comp]

theorem run_ticks_every_sweep_when_alive_witness :
    (sampleSweeper.run aliveTick).sweeps = sampleSweeper.sweeps.map (fun p =>
      (p.1, Sweep.markCollected
        (Sweep.tick (aliveTick.admissions p.1) (aliveTick.completions p.1) p.2))) :=
  run_ticks_every_sweep_when_alive sampleSweeper aliveTick rfl rfl

/-! ## C9 — no sweep advancement and no forwarding while a collaborator is down -/

/-- C9: if on a tick the file server or the database does not report alive,
`Sweeper.run` leaves the Sweeper state unchanged: no sweep's `run` is
invoked (the `sweeps` entries are exactly as before) and nothing is posted
to the persistence endpoint. -/
theorem run_noop_when_collaborator_dead (st : Sweeper) (ev : TickEvent)
    (h : ev.fs_alive = false ∨ ev.db_alive = false) :
    st.run ev = st := by
  rcases h with h | h <;> simp [Sweeper.run, h]

theorem run_noop_when_collaborator_dead_witness :
    sampleSweeper.run deadTick = sampleSweeper :=
  run_noop_when_collaborator_dead sampleSweeper deadTick (Or.inl rfl)

/-! ## C5 — the shape of the abstract Algorithm base class -/

/-- C5 as stated is false: `lightning_hpo/algorithm/base.py` declares a fifth
abstract method, `get_params`, beyond the four operations the claim lists,
and it is `get_params(trial_id)` — not `trial_start` — whose signature
returns the `Dict[str, Any]` mapping from parameter name to value. -/
theorem algorithm_four_methods_counterexample :
    "get_params" ∈ Algorithm.abstractMethods ∧
    "get_params" ∉ ["register_distributions", "trial_start", "should_prune", "trial_end"] ∧
    Algorithm.abstractMethods.length ≠ 4 := by
  decide

/-- C5 amended: the abstract `Algorithm` interface consists of exactly the
five operations `register_distributions`, `trial_start`, `trial_end`,
`should_prune` and `get_params` (in source order); `get_params(trial_id)` is
the operation returning the mapping from parameter name to sampled value, as
the `get_params` field of the `Algorithm` record records. -/
theorem algorithm_interface_five_methods :
    Algorithm.abstractMethods =
      ["register_distributions", "trial_start", "trial_end", "should_prune", "get_params"] ∧
    Algorithm.abstractMethods.length = 5 := by
  decide

/-! ## C10 — `render_fn` requires exactly one hyphen in every `sweep_id` -/

theorem splitOnHyphen_ne_nil (l : List Char) : splitOnHyphen l ≠ [] := by
  cases l with
  | nil => simp [splitOnHyphen]
  | cons c cs =>
    unfold splitOnHyphen
    rcases splitOnHyphen cs with _ | ⟨r, rs⟩ <;> by_cases hc : c = '-' <;> simp [hc]

/-- The number of parts `split("-")` produces is the hyphen count plus one. -/
theorem splitOnHyphen_length (l : List Char) :
    (splitOnHyphen l).length = l.count '-' + 1 := by
  induction l with
  | nil => rfl
  | cons c cs ih =>
    rcases h : splitOnHyphen cs with _ | ⟨r, rs⟩
    · exact absurd h (splitOnHyphen_ne_nil cs)
    · rw [h] at ih
      by_cases hc : c = '-' <;>
        simp [splitOnHyphen, h, hc, List.count_cons, ← ih]

/-- The two-variable unpacking of `render_fn` raises unless the `sweep_id`
contains exactly one hyphen. -/
theorem unpackUserSweep_eq_none {s : List Char} (h : s.count '-' ≠ 1) :
    unpackUserSweep s = none := by
  have hlen := splitOnHyphen_length s
  unfold unpackUserSweep
  rcases hs : splitOnHyphen s with _ | ⟨a, tl⟩
  · rfl
  · rcases tl with _ | ⟨b, tl2⟩
    · rfl
    · rcases tl2 with _ | ⟨d, tl3⟩
      · rw [hs] at hlen
        simp at hlen
        omega
      · rfl

/-- C10: `render_fn` assumes the `"{user}-{name}"` convention — if any
stored (terminal) trial's `sweep_id` does not split on `"-"` into exactly
two parts (equivalently, does not contain exactly one hyphen), the rendering
fails with an unpacking error instead of displaying the sweeps. -/
theorem render_fails_without_single_hyphen (trials : List TrialRecord)
    (t : TrialRecord) (ht : t ∈ trials)
    (hh : t.sweep_id.data.count '-' ≠ 1) :
    renderGroups trials = none := by
  induction trials with
  | nil => cases ht
  | cons u us ih =>
    rcases List.mem_cons.mp ht with rfl | htl
    · simp [renderGroups, unpackUserSweep_eq_none hh]
    · unfold renderGroups
      rcases hu : unpackUserSweep u.sweep_id.data with _ | p
      · rfl
      · rw [ih htl]

/-- Witness for C10: one stored trial whose `sweep_id` is `"alice"` (no
hyphen at all) makes the rendering fail. -/
theorem render_fails_without_single_hyphen_witness :
    renderGroups [{ sweep_id := "alice", trial_id := 0 }] = none :=
  render_fails_without_single_hyphen _ { sweep_id := "alice", trial_id := 0 }
    (by decide) (by decide)

/-! ## C8 — the sweeps mapping never shrinks -/

theorem Sweep.obj_id_tick (a : Nat) (c : List Nat) (s : Sweep) :
    (Sweep.tick a c s).obj_id = s.obj_id := rfl

theorem Sweep.obj_id_markCollected (s : Sweep) :
    (Sweep.markCollected s).obj_id = s.obj_id := rfl

/-- Looking up a key after a run tick's per-sweep transformation of the
mapping: the stored sweep at `k` is ticked and collected with `k`'s own
admission/completion events. -/
theorem lookup_run_sweeps (ev : TickEvent) (l : List (String × Sweep)) (k : String) :
    (collectSweeps (tickSweeps ev l)).lookup k =
    (l.lookup k).map
      (fun sw => Sweep.markCollected (Sweep.tick (ev.admissions k) (ev.completions k) sw)) := by
  induction l with
  | nil => simp [collectSweeps, tickSweeps, List.lookup]
  | cons p rest ih =>
    rcases p with ⟨a, b⟩
    by_cases hk : k = a
    · subst hk; simp [collectSweeps, tickSweeps, lookup_cons]
    · simpa [collectSweeps, tickSweeps, lookup_cons, hk] using ih

/-- One operation — a creation request or a tick — never removes or replaces
a sweep: an existing key still maps to a sweep with the same allocation
stamp. -/
theorem applyOp_preserves_sweep (st : Sweeper) (op : Op) (k : String) (s : Sweep)
    (h : st.sweeps.lookup k = some s) :
    ∃ s', (applyOp st op).sweeps.lookup k = some s' ∧ s'.obj_id = s.obj_id := by
  cases op with
  | create config =>
    rcases hl : st.sweeps.lookup config.sweep_id with _ | sw
    · simp only [applyOp, Sweeper.create_sweep, hl]
      exact ⟨s, lookup_append_of_some _ h, rfl⟩
    · simp only [applyOp, Sweeper.create_sweep, hl]
      by_cases hf : sw.has_failed = true
      · rw [if_pos hf]
        by_cases hk : k = config.sweep_id
        · subst hk
          rw [h] at hl
          cases hl
          exact ⟨_, lookup_updateSweeps_self _ h, rfl⟩
        · refine ⟨s, ?_, rfl⟩
          rw [lookup_updateSweeps_ne _ hk]
          exact h
      · rw [if_neg hf]
        exact ⟨s, h, rfl⟩
  | tick ev =>
    simp only [applyOp, Sweeper.run]
    by_cases ha : (ev.fs_alive && ev.db_alive) = true
    · rw [if_pos ha]
      refine ⟨Sweep.markCollected
        (Sweep.tick (ev.admissions k) (ev.completions k) s), ?_, rfl⟩
      rw [lookup_run_sweeps ev st.sweeps k, h]
      rfl
    · rw [if_neg ha]
      exact ⟨s, h, rfl⟩

/-- C8: the `sweeps` mapping never shrinks.  Across every sequence of
`create_sweep` calls and `Sweeper.run` ticks, once a `sweep_id` is a key of
the mapping it remains a key, and the sweep stored there is the same Sweep
object (same allocation stamp `obj_id`): entries are never removed or
replaced, including for failed sweeps. -/
theorem sweeps_never_shrink (st : Sweeper) (ops : List Op) (k : String) (s : Sweep)
    (h : st.sweeps.lookup k = some s) :
    ∃ s', (ops.foldl applyOp st).sweeps.lookup k = some s' ∧ s'.obj_id = s.obj_id := by
  induction ops generalizing st s with
  | nil => exact ⟨s, h, rfl⟩
  | cons op rest ih =>
    rcases applyOp_preserves_sweep st op k s h with ⟨s1, h1, e1⟩
    rcases ih (applyOp st op) s1 h1 with ⟨s2, h2, e2⟩
    exact ⟨s2, h2, e2.trans e1⟩

theorem sweeps_never_shrink_witness :
    ∃ s', (([Op.tick aliveTick, Op.create sampleConfig].foldl applyOp
        sampleSweeper).sweeps.lookup "alice-exp1") = some s' ∧
      s'.obj_id = (newSweep 0 "lit://code" sampleConfig).obj_id :=
  sweeps_never_shrink sampleSweeper [Op.tick aliveTick, Op.create sampleConfig]
    "alice-exp1" (newSweep 0 "lit://code" sampleConfig) (by decide)

/-! ## C3 — every terminal trial is forwarded exactly once

The argument: at every reachable state, the posted trace is (up to
permutation) exactly the set of collected trials of all sweeps; together
with uniqueness of sweep keys and of trial ids this makes the trace
duplicate-free, and together with "collected = terminal between ticks" it
makes every terminal trial appear in the trace. -/

theorem trial_id_markTerminal (c : List Nat) (t : Trial) :
    (markTerminal c t).trial_id = t.trial_id := by
  unfold markTerminal; split <;> rfl

theorem collected_markTerminal (c : List Nat) (t : Trial) :
    (markTerminal c t).collected = t.collected := by
  unfold markTerminal; split <;> rfl

theorem trial_id_collectTrial (t : Trial) :
    (collectTrial t).trial_id = t.trial_id := by
  unfold collectTrial; split <;> rfl

theorem terminal_collectTrial (t : Trial) :
    (collectTrial t).terminal = t.terminal := by
  unfold collectTrial; split <;> rfl

theorem collected_collectTrial (t : Trial) :
    (collectTrial t).collected = (t.terminal || t.collected) := by
  unfold collectTrial
  cases h : t.terminal <;> simp [h]

/-- The posted record of one trial of the sweep stored at key `k`. -/
def trialKey (k : String) (t : Trial) : String × Nat := (k, t.trial_id)

/-- The records of the already-collected trials of one sweep. -/
def sweepCollected (k : String) (s : Sweep) : List (String × Nat) :=
  (s.trials.filter (fun t => t.collected)).map (trialKey k)

/-- The records of all collected trials of all owned sweeps. -/
def allCollected (st : Sweeper) : List (String × Nat) :=
  st.sweeps.flatMap (fun p => sweepCollected p.1 p.2)

theorem map_trialKey_map_collectTrial (k : String) (ts : List Trial) :
    (ts.map collectTrial).map (trialKey k) = ts.map (trialKey k) := by
  rw [List.map_map]
  exact List.map_congr_left (fun t _ => by simp [Function.comp, trialKey, trial_id_collectTrial])

theorem map_trialKey_map_markTerminal (k : String) (c : List Nat) (ts : List Trial) :
    (ts.map (markTerminal c)).map (trialKey k) = ts.map (trialKey k) := by
  rw [List.map_map]
  exact List.map_congr_left (fun t _ => by simp [Function.comp, trialKey, trial_id_markTerminal])

theorem filter_collected_map_collectTrial (ts : List Trial) :
    (ts.map collectTrial).filter (fun t => t.collected) =
    (ts.filter (fun t => t.terminal || t.collected)).map collectTrial := by
  induction ts with
  | nil => rfl
  | cons t ts ih =>
    by_cases h : (t.terminal || t.collected) = true <;>
      simp [List.filter_cons, collected_collectTrial, h, ih]

theorem filter_collected_map_markTerminal (c : List Nat) (ts : List Trial) :
    (ts.map (markTerminal c)).filter (fun t => t.collected) =
    (ts.filter (fun t => t.collected)).map (markTerminal c) := by
  induction ts with
  | nil => rfl
  | cons t ts ih =>
    by_cases h : t.collected = true <;>
      simp [List.filter_cons, collected_markTerminal, h, ih]

theorem newTrialsFrom_not_collected (start n : Nat) :
    (newTrialsFrom start n).filter (fun t => t.collected) = [] := by
  rw [List.filter_eq_nil_iff]
  intro t ht
  simp [newTrialsFrom] at ht
  rcases ht with ⟨i, _, rfl⟩
  simp

/-- Splitting the trials that count as collected after a collection pass into
the previously collected ones and the newly-terminal ones. -/
theorem filter_or_perm (ts : List Trial) :
    (ts.filter (fun t => t.terminal || t.collected)).Perm
      (ts.filter (fun t => t.collected) ++
        ts.filter (fun t => t.terminal && !t.collected)) := by
  induction ts with
  | nil => exact List.Perm.refl _
  | cons t ts ih =>
    by_cases hc : t.collected = true
    · simp only [List.filter_cons, hc, Bool.or_true, Bool.not_true, Bool.and_false,
        if_true, if_false]
      simpa using ih.cons t
    · simp only [Bool.not_eq_true] at hc
      by_cases hterm : t.terminal = true
      · simp only [List.filter_cons, hc, hterm, Bool.true_or, Bool.not_false,
          Bool.and_true, if_true, if_false]
        exact (ih.cons t).trans List.perm_middle.symm
      · simp only [Bool.not_eq_true] at hterm
        simp only [List.filter_cons, hc, hterm, Bool.or_self, Bool.and_self, if_false]
        exact ih

/-- A collection pass turns the collected set into "collected or terminal":
its records split into the previously collected ones and the newly posted
ones. -/
theorem sweepCollected_markCollected_perm (k : String) (s : Sweep) :
    (sweepCollected k (Sweep.markCollected s)).Perm
      (sweepCollected k s ++ Sweep.newKeys k s) := by
  unfold sweepCollected Sweep.markCollected Sweep.newKeys Sweep.get_trials
  dsimp only
  rw [filter_collected_map_collectTrial, map_trialKey_map_collectTrial]
  have := (filter_or_perm s.trials).map (trialKey k)
  rw [List.map_append] at this
  exact this

/-- Ticking a sweep does not change which trials count as collected. -/
theorem sweepCollected_tick (k : String) (a : Nat) (c : List Nat) (s : Sweep) :
    sweepCollected k (Sweep.tick a c s) = sweepCollected k s := by
  unfold sweepCollected Sweep.tick
  dsimp only
  rw [filter_collected_map_markTerminal, map_trialKey_map_markTerminal,
    List.filter_append, newTrialsFrom_not_collected, List.append_nil]

/-- The collection pass over every sweep splits, up to permutation, into the
previously collected records and the newly forwarded ones. -/
theorem flatMap_collect_perm (l : List (String × Sweep)) :
    (l.flatMap (fun p => sweepCollected p.1 (Sweep.markCollected p.2))).Perm
      (l.flatMap (fun p => sweepCollected p.1 p.2) ++
        l.flatMap (fun p => Sweep.newKeys p.1 p.2)) := by
  induction l with
  | nil => simp
  | cons p l ih =>
    simp only [List.flatMap_cons]
    refine ((sweepCollected_markCollected_perm p.1 p.2).append ih).trans ?_
    rw [List.append_assoc, List.append_assoc]
    refine List.Perm.append_left _ ?_
    rw [← List.append_assoc, ← List.append_assoc]
    exact (List.perm_append_comm.append_right _).trans (by rw [List.append_assoc])

theorem flatMap_congr_mem {α β : Type} (l : List α) (f g : α → List β)
    (h : ∀ x ∈ l, f x = g x) : l.flatMap f = l.flatMap g := by
  induction l with
  | nil => rfl
  | cons x l ih =>
    simp only [List.flatMap_cons, h x (List.mem_cons_self x l)]
    rw [ih (fun y hy => h y (List.mem_cons_of_mem x hy))]

theorem map_trial_id_map_collectTrial (ts : List Trial) :
    (ts.map collectTrial).map Trial.trial_id = ts.map Trial.trial_id := by
  rw [List.map_map]
  exact List.map_congr_left (fun t _ => by simp [Function.comp, trial_id_collectTrial])

theorem map_trial_id_map_markTerminal (c : List Nat) (ts : List Trial) :
    (ts.map (markTerminal c)).map Trial.trial_id = ts.map Trial.trial_id := by
  rw [List.map_map]
  exact List.map_congr_left (fun t _ => by simp [Function.comp, trial_id_markTerminal])

theorem map_trial_id_newTrialsFrom (start n : Nat) :
    (newTrialsFrom start n).map Trial.trial_id = (List.range n).map (start + ·) := by
  unfold newTrialsFrom
  rw [List.map_map]
  exact List.map_congr_left (fun i _ => rfl)

theorem terminal_markTerminal_of (c : List Nat) (t : Trial) (h : t.terminal = true) :
    (markTerminal c t).terminal = true := by
  unfold markTerminal; split <;> simp [h]

/-- The state invariant of the Sweeper: keys are unique; within every sweep
trial ids are exactly `0..len-1`; between ticks a trial is collected exactly
when it is terminal; and the posted trace is a permutation of the collected
records of all sweeps. -/
structure SweeperInv (st : Sweeper) : Prop where
  keysNodup : (st.sweeps.map Prod.fst).Nodup
  idsOk : ∀ p ∈ st.sweeps, p.2.trials.map Trial.trial_id = List.range p.2.trials.length
  collEq : ∀ p ∈ st.sweeps, ∀ t ∈ p.2.trials, t.collected = t.terminal
  postedPerm : st.posted.Perm (allCollected st)

theorem sweeperInv_init : SweeperInv Sweeper.init := by
  refine ⟨?_, ?_, ?_, ?_⟩ <;> simp [Sweeper.init, allCollected]

theorem sweepCollected_congr_trials (k : String) {s s' : Sweep}
    (h : s'.trials = s.trials) : sweepCollected k s' = sweepCollected k s := by
  unfold sweepCollected
  rw [h]

theorem updateSweeps_map_fst (k : String) (f : Sweep → Sweep) (l : List (String × Sweep)) :
    (updateSweeps k f l).map Prod.fst = l.map Prod.fst := by
  induction l with
  | nil => rfl
  | cons p l ih =>
    by_cases h : p.1 = k <;> simp [updateSweeps, h, ih]

theorem mem_updateSweeps {k : String} {f : Sweep → Sweep} {l : List (String × Sweep)}
    {q : String × Sweep} (hq : q ∈ updateSweeps k f l) :
    ∃ p ∈ l, q.1 = p.1 ∧ (q.2 = p.2 ∨ q.2 = f p.2) := by
  induction l with
  | nil => cases hq
  | cons p l ih =>
    simp only [updateSweeps, List.mem_cons] at hq
    rcases hq with hq | hq
    · by_cases h : p.1 = k
      · rw [if_pos h] at hq
        exact ⟨p, List.mem_cons_self p l, by rw [hq], Or.inr (by rw [hq])⟩
      · rw [if_neg h] at hq
        exact ⟨p, List.mem_cons_self p l, by rw [hq], Or.inl (by rw [hq])⟩
    · rcases ih hq with ⟨p', hp', he, ho⟩
      exact ⟨p', List.mem_cons_of_mem p hp', he, ho⟩

theorem not_mem_keys_of_lookup_none {l : List (String × Sweep)} {k : String}
    (h : l.lookup k = none) : k ∉ l.map Prod.fst := by
  simp [List.lookup_eq_none_iff] at h
  simp only [List.mem_map]
  rintro ⟨⟨a, b⟩, hm, rfl⟩
  exact h a b hm rfl

/-- `create_sweep` preserves the Sweeper invariant. -/
theorem sweeperInv_create (st : Sweeper) (config : SweepConfig) (h : SweeperInv st) :
    SweeperInv (st.create_sweep config).1 := by
  rcases hl : st.sweeps.lookup config.sweep_id with _ | sw
  · simp only [Sweeper.create_sweep, hl]
    refine ⟨?_, ?_, ?_, ?_⟩
    · rw [List.map_append, List.nodup_append]
      refine ⟨h.keysNodup, by simp, ?_⟩
      intro a ha hb
      simp at hb
      rw [hb] at ha
      exact not_mem_keys_of_lookup_none hl ha
    · intro p hp
      rcases List.mem_append.mp hp with hp | hp
      · exact h.idsOk p hp
      · simp at hp
        rw [hp]
        rfl
    · intro p hp t ht
      rcases List.mem_append.mp hp with hp | hp
      · exact h.collEq p hp t ht
      · simp at hp
        rw [hp] at ht
        cases ht
    · show st.posted.Perm (allCollected _)
      unfold allCollected
      rw [List.flatMap_append]
      simpa [sweepCollected, newSweep] using h.postedPerm
  · simp only [Sweeper.create_sweep, hl]
    by_cases hf : sw.has_failed = true
    · rw [if_pos hf]
      refine ⟨?_, ?_, ?_, ?_⟩
      · simpa [updateSweeps_map_fst] using h.keysNodup
      · intro p hp
        rcases mem_updateSweeps hp with ⟨p', hp', _, ho⟩
        rcases ho with ho | ho <;> rw [ho] <;> exact h.idsOk p' hp'
      · intro p hp t ht
        rcases mem_updateSweeps hp with ⟨p', hp', _, ho⟩
        rcases ho with ho | ho <;> rw [ho] at ht <;> exact h.collEq p' hp' t ht
      · show st.posted.Perm (allCollected _)
        unfold allCollected
        have : ∀ l : List (String × Sweep),
            (updateSweeps config.sweep_id
              (fun s => { s with restart_count := s.restart_count + 1, has_failed := false })
              l).flatMap (fun p => sweepCollected p.1 p.2) =
            l.flatMap (fun p => sweepCollected p.1 p.2) := by
          intro l
          induction l with
          | nil => rfl
          | cons p l ih =>
            by_cases hk : p.1 = config.sweep_id
            · simp [updateSweeps, hk, List.flatMap_cons, ih]
              exact sweepCollected_congr_trials config.sweep_id rfl
            · simp [updateSweeps, hk, List.flatMap_cons, ih]
        rw [this]
        exact h.postedPerm
    · rw [if_neg hf]
      exact h

theorem newTrialsFrom_length (start n : Nat) : (newTrialsFrom start n).length = n := by
  simp [newTrialsFrom]

theorem mem_newTrialsFrom_collected {start n : Nat} {t : Trial}
    (h : t ∈ newTrialsFrom start n) : t.collected = false := by
  simp [newTrialsFrom] at h
  rcases h with ⟨i, _, rfl⟩
  rfl

theorem map_fst_tickSweeps (ev : TickEvent) (l : List (String × Sweep)) :
    (tickSweeps ev l).map Prod.fst = l.map Prod.fst := by
  unfold tickSweeps
  rw [List.map_map]
  exact List.map_congr_left (fun p _ => rfl)

theorem map_fst_collectSweeps (l : List (String × Sweep)) :
    (collectSweeps l).map Prod.fst = l.map Prod.fst := by
  unfold collectSweeps
  rw [List.map_map]
  exact List.map_congr_left (fun p _ => rfl)

/-- The collected records over the sweeps after a full tick split, up to
permutation, into the previously collected ones and the newly posted ones. -/
theorem collected_after_run_perm (ev : TickEvent) (l : List (String × Sweep)) :
    ((collectSweeps (tickSweeps ev l)).flatMap (fun p => sweepCollected p.1 p.2)).Perm
      (l.flatMap (fun p => sweepCollected p.1 p.2) ++ newlyPosted (tickSweeps ev l)) := by
  unfold collectSweeps newlyPosted
  rw [List.flatMap_map]
  dsimp only
  refine (flatMap_collect_perm (tickSweeps ev l)).trans ?_
  refine List.Perm.append_right _ ?_
  unfold tickSweeps
  rw [List.flatMap_map]
  dsimp only
  rw [flatMap_congr_mem l _ (fun p => sweepCollected p.1 p.2)
    (fun p _ => sweepCollected_tick p.1 (ev.admissions p.1) (ev.completions p.1) p.2)]

/-- A coordination tick preserves the Sweeper invariant. -/
theorem sweeperInv_run (st : Sweeper) (ev : TickEvent) (h : SweeperInv st) :
    SweeperInv (st.run ev) := by
  by_cases ha : (ev.fs_alive && ev.db_alive) = true
  · have hs : (st.run ev).sweeps = collectSweeps (tickSweeps ev st.sweeps) := by
      simp [Sweeper.run, ha]
    have hp : (st.run ev).posted = st.posted ++ newlyPosted (tickSweeps ev st.sweeps) := by
      simp [Sweeper.run, ha]
    refine ⟨?_, ?_, ?_, ?_⟩
    · rw [hs, map_fst_collectSweeps, map_fst_tickSweeps]
      exact h.keysNodup
    · rw [hs]
      intro p hp'
      simp only [collectSweeps, tickSweeps, List.map_map, List.mem_map] at hp'
      rcases hp' with ⟨q, hq, rfl⟩
      simp only [Function.comp, Sweep.markCollected, Sweep.tick]
      rw [map_trial_id_map_collectTrial, map_trial_id_map_markTerminal, List.map_append,
        h.idsOk q hq, map_trial_id_newTrialsFrom, ← List.range_add]
      simp [newTrialsFrom_length]
    · rw [hs]
      intro p hp' t'' ht''
      simp only [collectSweeps, tickSweeps, List.map_map, List.mem_map] at hp'
      rcases hp' with ⟨q, hq, rfl⟩
      simp only [Function.comp, Sweep.markCollected, Sweep.tick] at ht''
      rcases List.mem_map.mp ht'' with ⟨t', ht', rfl⟩
      rcases List.mem_map.mp ht' with ⟨u, hu, rfl⟩
      rw [collected_collectTrial, terminal_collectTrial, collected_markTerminal]
      have hcu : u.collected = false ∨ u.collected = u.terminal := by
        rcases List.mem_append.mp hu with hu | hu
        · exact Or.inr (h.collEq q hq u hu)
        · exact Or.inl (mem_newTrialsFrom_collected hu)
      cases hterm : u.terminal
      · have hc : u.collected = false := by
          rcases hcu with hc | hc
          · exact hc
          · rw [hc, hterm]
        simp [hc]
      · rw [terminal_markTerminal_of _ u hterm]
        simp
    · unfold allCollected
      rw [hp, hs]
      refine ((h.postedPerm.append (List.Perm.refl _)).trans ?_)
      exact (collected_after_run_perm ev st.sweeps).symm
  · have : st.run ev = st := by simp [Sweeper.run, ha]
    rw [this]
    exact h

/-- Every reachable Sweeper state satisfies the invariant. -/
theorem sweeperInv_applyOps (ops : List Op) : SweeperInv (applyOps ops) := by
  suffices hgen : ∀ st, SweeperInv st → SweeperInv (ops.foldl applyOp st) from
    hgen Sweeper.init sweeperInv_init
  induction ops with
  | nil => exact fun st hst => hst
  | cons op rest ih =>
    intro st hst
    refine ih (applyOp st op) ?_
    cases op with
    | create config => exact sweeperInv_create st config hst
    | tick ev => exact sweeperInv_run st ev hst

/-- Under the invariant, the collected records carry no duplicates: sweep
keys are unique across sweeps and trial ids unique within a sweep. -/
theorem allCollected_nodup (st : Sweeper) (h : SweeperInv st) :
    (allCollected st).Nodup := by
  unfold allCollected
  rw [List.flatMap_def, List.nodup_flatten]
  constructor
  · intro l' hl'
    rcases List.mem_map.mp hl' with ⟨p, hpmem, rfl⟩
    unfold sweepCollected trialKey
    have hsub : ((p.2.trials.filter (fun t => t.collected)).map Trial.trial_id).Sublist
        (p.2.trials.map Trial.trial_id) :=
      (List.filter_sublist _).map _
    rw [h.idsOk p hpmem] at hsub
    have hnd := (List.nodup_range p.2.trials.length).sublist hsub
    have hinj : Function.Injective (Prod.mk p.1 : Nat → String × Nat) := by
      intro a b hab
      simpa using hab
    simpa [List.map_map, Function.comp] using hnd.map hinj
  · have hkeys := h.keysNodup
    rw [List.Nodup, List.pairwise_map] at hkeys
    refine hkeys.map _ ?_
    intro p q hne x hxp hxq
    rcases List.mem_map.mp hxp with ⟨t, _, rfl⟩
    rcases List.mem_map.mp hxq with ⟨u, _, he⟩
    exact hne (congrArg Prod.fst he).symm

/-- Under the invariant, every terminal trial's record has been posted. -/
theorem mem_posted_of_terminal (st : Sweeper) (h : SweeperInv st)
    {p : String × Sweep} (hp : p ∈ st.sweeps) {t : Trial} (ht : t ∈ p.2.trials)
    (hterm : t.terminal = true) : (p.1, t.trial_id) ∈ st.posted := by
  have hc : t.collected = true := (h.collEq p hp t ht).trans hterm
  have hmem : (p.1, t.trial_id) ∈ sweepCollected p.1 p.2 :=
    List.mem_map.mpr ⟨t, List.mem_filter.mpr ⟨ht, hc⟩, rfl⟩
  have hall : (p.1, t.trial_id) ∈ allCollected st :=
    List.mem_flatMap.mpr ⟨p, hp, hmem⟩
  exact (h.postedPerm.mem_iff).mpr hall

/-- C3: across every sequence of Sweeper operations (creation requests and
`Sweeper.run` coordination ticks) from a fresh Sweeper, the trace of trial
records posted to the persistence endpoint contains each `(sweep_id,
trial_id)` record at most once — a trial already forwarded after becoming
terminal is never submitted again on a later tick — and every trial that
has reached a terminal state has been forwarded. -/
theorem trial_records_posted_once (ops : List Op) :
    (applyOps ops).posted.Nodup ∧
    ∀ p ∈ (applyOps ops).sweeps, ∀ t ∈ p.2.trials, t.terminal = true →
      (p.1, t.trial_id) ∈ (applyOps ops).posted := by
  have h := sweeperInv_applyOps ops
  refine ⟨h.postedPerm.nodup_iff.mpr (allCollected_nodup _ h), ?_⟩
  intro p hp t ht hterm
  exact mem_posted_of_terminal _ h hp ht hterm

end LightningHpo
